import Mathlib

/-!
Verification of the deterministic core of the audit-independence scanner:
the status normalizer (src/backend/app.py, lines 63-74, duplicated in
src/frontend/main.py lines 167-178 and 205-217), the law-context
annotator `stage2_inject_law_context` (src/backend/services/engine.py,
lines 84-117) and the graph renderer `build_graph_image_url`
(src/backend/services/engine.py, lines 209-256).

Python strings are modelled as `List Char`.  A Python expression that can
raise (here: `t.replace` when `t` is `None`) is modelled with `Option`:
`none` stands for the raised exception aborting the computation.
-/

/-- A Python string, modelled as its list of characters. -/
abbrev Str := List Char

/-- Python `str.strip()`: remove whitespace from both ends. -/
def pyStrip (s : Str) : Str :=
  ((s.dropWhile Char.isWhitespace).reverse.dropWhile Char.isWhitespace).reverse

/-- `isPrefixList pat s` is true when `pat` occurs at the very start of `s`. -/
def isPrefixList : Str → Str → Bool
  | [], _ => true
  | _ :: _, [] => false
  | a :: as, b :: bs => a == b && isPrefixList as bs

/-- Python's substring test `pat in s` (true somewhere in `s`,
including the empty pattern). -/
def hasSubstr (pat : Str) : Str → Bool
  | [] => isPrefixList pat []
  | c :: rest => isPrefixList pat (c :: rest) || hasSubstr pat rest

/-- Canonical status 1: 수임 불가 (unacceptable). -/
def S_UNACCEPTABLE : Str := "수임 불가".toList

/-- Canonical status 2: 안전장치 적용 시 수임 가능 (acceptable with safeguards). -/
def S_SAFEGUARDS_FULL : Str := "안전장치 적용 시 수임 가능".toList

/-- Canonical status 3: 수임 가능 (acceptable). -/
def S_ACCEPTABLE : Str := "수임 가능".toList

/-- Fallback status: 검토 중 (under review). -/
def S_UNDER_REVIEW : Str := "검토 중".toList

/-- Marker substring checked for the safeguards branch: 안전장치. -/
def S_SAFEGUARDS_MARKER : Str := "안전장치".toList

/-- `valid_statuses` from src/backend/app.py line 64. -/
def valid_statuses : List Str := [S_UNACCEPTABLE, S_SAFEGUARDS_FULL, S_ACCEPTABLE]

/-- Status post-processing of the backend request handler
(src/backend/app.py, lines 63-74). -/
def backend_normalize_status (raw : Str) : Str :=
  let status := pyStrip raw
  if status ∈ valid_statuses then status
  else if hasSubstr S_UNACCEPTABLE status then S_UNACCEPTABLE
  else if hasSubstr S_SAFEGUARDS_MARKER status then S_SAFEGUARDS_FULL
  else if hasSubstr S_ACCEPTABLE status then S_ACCEPTABLE
  else S_UNDER_REVIEW

/-- Status normalization of the frontend direct-engine branch
(src/frontend/main.py, lines 167-178). -/
def frontend_normalize_status_direct (raw : Str) : Str :=
  let status := pyStrip raw
  if status ∈ valid_statuses then status
  else if hasSubstr S_UNACCEPTABLE status then S_UNACCEPTABLE
  else if hasSubstr S_SAFEGUARDS_MARKER status then S_SAFEGUARDS_FULL
  else if hasSubstr S_ACCEPTABLE status then S_ACCEPTABLE
  else S_UNDER_REVIEW

/-- Status normalization of the frontend post-response pass
(src/frontend/main.py, lines 205-217), as the map from the incoming
`data["status"]` to the stored one.  The assignment
`data["status"] = norm_status` (line 217) sits inside the
`if raw_status not in valid_statuses:` block, so when the stripped status
is canonical the stored status stays the untrimmed original `raw`. -/
def frontend_normalize_status_post (raw : Str) : Str :=
  let raw_status := pyStrip raw
  if raw_status ∈ valid_statuses then raw
  else if hasSubstr S_UNACCEPTABLE raw_status then S_UNACCEPTABLE
  else if hasSubstr S_SAFEGUARDS_MARKER raw_status then S_SAFEGUARDS_FULL
  else if hasSubstr S_ACCEPTABLE raw_status then S_ACCEPTABLE
  else S_UNDER_REVIEW

/-- The example status string from the specification, containing both the
safeguards marker and the unacceptable marker. -/
def ex_status_both : Str := "안전장치 적용 시 수임 가능해 보이나 수임 불가 사유도 있음".toList

/-- A canonical status with surrounding whitespace: trims to 수임 불가. -/
def ex_status_padded : Str := " 수임 불가 ".toList

/-- Python `"\n".join(xs)` on a list of strings. -/
def join_with (sep : Str) : List Str → Str
  | [] => []
  | [s] => s
  | s :: rest => s ++ sep ++ join_with sep rest

/-- Keywords of rule 1 (equity holding) in
`stage2_inject_law_context`, src/backend/services/engine.py line 94. -/
def kw_equity : List Str := ["주식".toList, "회원권".toList, "지분".toList, "OWNS".toList]

/-- Citation of rule 1 (equity holding), engine.py lines 95-97. -/
def cite_equity : Str :=
  "[공인회계사법 제21조] 감사인 또는 그 배우자가 피감사회사의 주식, 사채, 회원권 등을 보유한 경우 감사업무 금지.".toList

/-- Keywords of rule 2 (non-audit services), engine.py line 100. -/
def kw_advisory : List Str := ["계리".toList, "자문".toList, "Consulting".toList]

/-- Citation of rule 2, engine.py lines 101-103. -/
def cite_advisory : Str :=
  "[외부감사법 제9조] 비감사서비스(보험계리, 내부통제 구축 등) 제공 시 독립성 훼손으로 간주.".toList

/-- Keywords of rule 3 (loans and borrowings), engine.py line 106. -/
def kw_loan : List Str := ["카드".toList, "할부".toList, "대출".toList, "차입".toList]

/-- Citation of rule 3, engine.py lines 107-109. -/
def cite_loan : Str :=
  "[공인회계사법 시행령 제14조] 5천만원 이상의 채권/채무는 금지되나, 금융기관의 통상적 약관에 따른 거래는 예외.".toList

/-- Keywords of rule 4 (family relationship), engine.py line 112. -/
def kw_family : List Str := ["배우자".toList, "FAMILY_OF".toList]

/-- Citation of rule 4, engine.py lines 113-115. -/
def cite_family : Str :=
  "[윤리기준] 감사팀 소속원의 직계 가족이 피감사인의 임원인 경우 수임 제한.".toList

/-- Default sentence returned when no rule fires, engine.py line 117. -/
def default_law_context : Str := "일반적 독립성 준수 원칙 적용".toList

/-- `stage2_inject_law_context` (engine.py lines 84-117).  The parameter
`data_str` is the serialized form of the graph, `str(graph_data)` in the
source; the function appends the citation of each rule whose keyword set
has a member occurring as a substring of `data_str`, in rule-declaration
order, and joins them with newlines, falling back to the default
sentence when no rule fires. -/
def stage2_inject_law_context (data_str : Str) : Str :=
  let context : List Str :=
    (if kw_equity.any (fun k => hasSubstr k data_str) then [cite_equity] else []) ++
    (if kw_advisory.any (fun k => hasSubstr k data_str) then [cite_advisory] else []) ++
    (if kw_loan.any (fun k => hasSubstr k data_str) then [cite_loan] else []) ++
    (if kw_family.any (fun k => hasSubstr k data_str) then [cite_family] else [])
  if context.isEmpty then default_law_context
  else join_with ("\n".toList) context

/-- The ordered (keyword-set, citation) rule table of
`stage2_inject_law_context`, in declaration order. -/
def law_rules : List (List Str × Str) :=
  [(kw_equity, cite_equity), (kw_advisory, cite_advisory),
   (kw_loan, cite_loan), (kw_family, cite_family)]

/-- Citations of the rules that fire on `data_str`, in rule-declaration
order, each exactly once. -/
def fired_citations (data_str : Str) : List Str :=
  law_rules.filterMap
    (fun r => if r.1.any (fun k => hasSubstr k data_str) then some r.2 else none)

/-- Every trigger keyword of every rule except 주식 itself. -/
def other_trigger_keywords : List Str :=
  ["회원권".toList, "지분".toList, "OWNS".toList] ++ kw_advisory ++ kw_loan ++ kw_family

/-- Every trigger keyword of every rule. -/
def all_trigger_keywords : List Str := kw_equity ++ kw_advisory ++ kw_loan ++ kw_family

/-- The `properties` mapping of a graph node, restricted to the four keys
the renderer reads (each `none` when the key is absent). -/
structure NodeProperties where
  name : Option Str
  type : Option Str
  firm_role : Option Str
  position : Option Str

/-- A graph node: `id` is `none` when the `"id"` key is absent. -/
structure GNode where
  id : Option Str
  properties : NodeProperties

/-- A graph edge; each field is `none` when the key is absent. -/
structure GEdge where
  source_id : Option Str
  target_id : Option Str
  type : Option Str

/-- The graph produced by stage 1. -/
structure Graph where
  nodes : List GNode
  relationships : List GEdge

/-- The risk annotation fields of the analysis result that the renderer
reads. -/
structure Analysis where
  risky_node_ids : List Str
  risky_edge_indices : List Int

/-- Python f-string interpolation of a possibly absent value:
`None` prints as the text `None`. -/
def pyShow (o : Option Str) : Str :=
  match o with
  | some s => s
  | none => "None".toList

/-- Python `x or y` on optional strings: `y` when `x` is `None` or empty
(falsy), else `x`. -/
def pyOrOpt (x y : Option Str) : Option Str :=
  match x with
  | none => y
  | some s => if s.isEmpty then y else some s

/-- Python `x or y` on strings: `y` when `x` is empty. -/
def pyOrStr (x y : Str) : Str := if x.isEmpty then y else x

/-- `props.get("name") or props.get("type") or nid`
(engine.py line 220). -/
def node_display_name (n : GNode) : Option Str :=
  pyOrOpt n.properties.name (pyOrOpt n.properties.type n.id)

/-- `props.get("firm_role", "") or props.get("position", "")`
(engine.py line 221). -/
def node_role (n : GNode) : Str :=
  pyOrStr (n.properties.firm_role.getD []) (n.properties.position.getD [])

/-- The display text of a node (engine.py lines 222-225): a two-line bold
label when a role is present, else the plain name. -/
def node_display_text (n : GNode) : Str :=
  if (node_role n).isEmpty then pyShow (node_display_name n)
  else "<b>".toList ++ pyShow (node_display_name n) ++ "</b><br/>[".toList ++
    node_role n ++ "]".toList

/-- `nid in risky_nodes` (engine.py line 227): `None` never matches a list
of strings. -/
def node_in_risky (nid : Option Str) (risky : List Str) : Bool :=
  match nid with
  | some i => decide (i ∈ risky)
  | none => false

/-- The warning glyph prefix `⚠️ ` (warning sign, variation selector,
space). -/
def WARN_GLYPH : Str := "⚠️ ".toList

/-- The Mermaid line of one node (engine.py lines 226-228). -/
def node_line (risky_nodes : List Str) (n : GNode) : Str :=
  "    ".toList ++ pyShow n.id ++ "[\"".toList ++
    (if node_in_risky n.id risky_nodes then WARN_GLYPH else []) ++
    node_display_text n ++ "\"]:::".toList ++
    (if node_in_risky n.id risky_nodes then "riskyNode".toList
     else "normalNode".toList)

/-- `t.replace("_", " ")` (engine.py line 236). -/
def underscore_to_space (t : Str) : Str :=
  t.map (fun c => if c = '_' then ' ' else c)

/-- Insertion of the two-character sequence `\n` at the first space of
`label`, replacing that space (engine.py lines 238-239). -/
def wrap_label (label : Str) : Str :=
  label.take (label.findIdx (fun c => c = ' ')) ++
    '\\' :: 'n' :: label.drop (label.findIdx (fun c => c = ' ') + 1)

/-- The rendered edge label (engine.py lines 236-239): underscores become
spaces, and a single line break is inserted at the first space when the
label is longer than 12 characters and contains a space. -/
def edge_label (t : Str) : Str :=
  if 12 < (underscore_to_space t).length ∧ ' ' ∈ underscore_to_space t then
    wrap_label (underscore_to_space t)
  else underscore_to_space t

/-- The Mermaid line of one edge (engine.py lines 230-243).  When the edge
has no `type`, Python raises `AttributeError` on `None.replace`, modelled
as `none`. -/
def edge_line (risky_edge_indices : List Int) (idx : Nat) (e : GEdge) :
    Option Str :=
  match e.type with
  | none => none
  | some t =>
    if (idx : Int) ∈ risky_edge_indices then
      some ("    ".toList ++ pyShow e.source_id ++ " -. \"".toList ++
        WARN_GLYPH ++ edge_label t ++ "\" .-> ".toList ++ pyShow e.target_id)
    else
      some ("    ".toList ++ pyShow e.source_id ++ " ---|\"".toList ++
        edge_label t ++ "\"| ".toList ++ pyShow e.target_id)

/-- Footer style line for normal nodes (engine.py lines 245-247). -/
def classdef_normal : Str :=
  "    classDef normalNode fill:#ffffff,stroke:#333,stroke-width:1px;".toList

/-- Footer style line for risky nodes (engine.py lines 248-250). -/
def classdef_risky : Str :=
  "    classDef riskyNode fill:#fff5f5,stroke:#ff0000,stroke-width:2px,stroke-dasharray: 5 5;".toList

/-- UTF-8 encoding of one character (code point to bytes), as performed by
Python's `str.encode("utf-8")`. -/
def utf8Char (c : Char) : List Nat :=
  let n := c.toNat
  if n < 128 then [n]
  else if n < 2048 then [192 + n / 64, 128 + n % 64]
  else if n < 65536 then [224 + n / 4096, 128 + (n / 64) % 64, 128 + n % 64]
  else [240 + n / 262144, 128 + (n / 4096) % 64, 128 + (n / 64) % 64,
    128 + n % 64]

/-- UTF-8 encoding of a string as a byte list. -/
def utf8Encode (s : Str) : List Nat := s.foldr (fun c acc => utf8Char c ++ acc) []

/-- The standard base64 alphabet (RFC 4648, the one used by Python's
`base64.b64encode`: `+` and `/`, not the URL-safe variant). -/
def base64Alphabet : Str :=
  "ABCDEFGHIJKLMNOPQRSTUVWXYZabcdefghijklmnopqrstuvwxyz0123456789+/".toList

/-- The base64 digit of a 6-bit value. -/
def b64Char (i : Nat) : Char := base64Alphabet.getD i '?'

/-- Standard base64 of a byte list: groups of three bytes become four
digits, with `=` padding and no line wrapping, as `base64.b64encode`. -/
def base64Encode : List Nat → Str
  | [] => []
  | [b1] => [b64Char (b1 / 4), b64Char (b1 % 4 * 16), '=', '=']
  | [b1, b2] => [b64Char (b1 / 4), b64Char (b1 % 4 * 16 + b2 / 16),
      b64Char (b2 % 16 * 4), '=']
  | b1 :: b2 :: b3 :: rest =>
    b64Char (b1 / 4) :: b64Char (b1 % 4 * 16 + b2 / 16) ::
      b64Char (b2 % 16 * 4 + b3 / 64) :: b64Char (b3 % 64) ::
      base64Encode rest

/-- The fixed base path of the diagram host (engine.py line 253). -/
def mermaid_ink_base : Str := "https://mermaid.ink/img/".toList

/-- `build_graph_image_url` (engine.py lines 209-256), mirroring the
source's accumulation: start from `graph TD`, append one line per node,
then one line per edge in order (aborting with `none` when an edge has no
`type`), append the two footer class definitions, join with newlines,
UTF-8-encode, base64-encode and append to the fixed base path. -/
def build_graph_image_url (graph : Graph) (analysis : Analysis) :
    Option Str :=
  let mm1 : List Str :=
    graph.nodes.foldl
      (fun acc n => acc ++ [node_line analysis.risky_node_ids n])
      ["graph TD".toList]
  let mm2 : Option (List Str) :=
    graph.relationships.enum.foldl
      (fun acc ie => acc.bind (fun ls =>
        (edge_line analysis.risky_edge_indices ie.1 ie.2).map
          (fun l => ls ++ [l])))
      (some mm1)
  mm2.map (fun ls =>
    mermaid_ink_base ++
      base64Encode (utf8Encode (join_with ("\n".toList)
        (ls ++ [classdef_normal, classdef_risky]))))

/-- `List.mapM` specialised to `Option`, written out. -/
def mapMOpt {α β : Type} (f : α → Option β) : List α → Option (List β)
  | [] => some []
  | x :: xs => (f x).bind (fun y => (mapMOpt f xs).map (fun ys => y :: ys))

/-- The list of Mermaid markup lines of a render: header, one line per node
in input order, one line per edge in input order, two footer lines; `none`
when some edge has no `type`. -/
def mermaid_lines (graph : Graph) (analysis : Analysis) :
    Option (List Str) :=
  (mapMOpt (fun ie => edge_line analysis.risky_edge_indices ie.1 ie.2)
      graph.relationships.enum).map
    (fun edge_lines =>
      "graph TD".toList ::
        (graph.nodes.map (node_line analysis.risky_node_ids) ++
          (edge_lines ++ [classdef_normal, classdef_risky])))

/-- The URL built from a list of markup lines: fixed base path plus the
standard base64 of the UTF-8 bytes of the newline-joined lines. -/
def encode_markup (ls : List Str) : Str :=
  mermaid_ink_base ++ base64Encode (utf8Encode (join_with ("\n".toList) ls))

/-- Example node `p1` with a name and a firm role. -/
def ex_node_p1 : GNode :=
  { id := some ("p1".toList)
    properties :=
      { name := some ("김한국".toList), type := none
        firm_role := some ("파트너".toList), position := none } }

/-- Example node `o1` with a name only. -/
def ex_node_o1 : GNode :=
  { id := some ("o1".toList)
    properties :=
      { name := some ("대한그룹".toList), type := none
        firm_role := none, position := none } }

/-- Example node with no `id` key. -/
def ex_node_noid : GNode :=
  { id := none
    properties :=
      { name := none, type := none, firm_role := none, position := none } }

/-- Example edge `p1 -> o1` of type `EMPLOYED_BY`. -/
def ex_edge : GEdge :=
  { source_id := some ("p1".toList), target_id := some ("o1".toList)
    type := some ("EMPLOYED_BY".toList) }

/-- Example edge with no `type` key. -/
def ex_edge_notype : GEdge :=
  { source_id := some ("p1".toList), target_id := some ("o1".toList)
    type := none }

/-- Example graph with two nodes and one edge. -/
def ex_graph : Graph :=
  { nodes := [ex_node_p1, ex_node_o1], relationships := [ex_edge] }

/-- Example analysis flagging node `p1` and edge 0. -/
def ex_analysis : Analysis :=
  { risky_node_ids := ["p1".toList], risky_edge_indices := [0] }

/-- Graph whose only edge has no `type` key. -/
def ex_graph_bad_edge : Graph :=
  { nodes := [], relationships := [ex_edge_notype] }

/-- Graph with an id-less node and one well-typed edge. -/
def ex_graph_noid : Graph :=
  { nodes := [ex_node_noid], relationships := [ex_edge] }

/-- Analysis with no risky elements. -/
def ex_analysis_empty : Analysis :=
  { risky_node_ids := [], risky_edge_indices := [] }

/-- C1: normalization trims whitespace and returns the trimmed string
unchanged when it equals a canonical phrase; otherwise substring checks run
in priority order 수임 불가, then 안전장치, then 수임 가능, returning the
canonical phrase of the first substring found; in particular a non-canonical
string containing both the safeguards and the unacceptable substrings
resolves to 수임 불가. -/
theorem C1_status_priority (raw : Str) :
    (pyStrip raw ∈ valid_statuses → backend_normalize_status raw = pyStrip raw) ∧
    (pyStrip raw ∉ valid_statuses →
      (hasSubstr S_UNACCEPTABLE (pyStrip raw) = true →
        backend_normalize_status raw = S_UNACCEPTABLE) ∧
      (hasSubstr S_UNACCEPTABLE (pyStrip raw) = false →
        hasSubstr S_SAFEGUARDS_MARKER (pyStrip raw) = true →
        backend_normalize_status raw = S_SAFEGUARDS_FULL) ∧
      (hasSubstr S_UNACCEPTABLE (pyStrip raw) = false →
        hasSubstr S_SAFEGUARDS_MARKER (pyStrip raw) = false →
        hasSubstr S_ACCEPTABLE (pyStrip raw) = true →
        backend_normalize_status raw = S_ACCEPTABLE) ∧
      (hasSubstr S_SAFEGUARDS_MARKER (pyStrip raw) = true →
        hasSubstr S_UNACCEPTABLE (pyStrip raw) = true →
        backend_normalize_status raw = S_UNACCEPTABLE)) := by
  constructor
  · intro h
    simp [backend_normalize_status, h]
  · intro h
    refine ⟨?_, ?_, ?_, ?_⟩
    · intro h1
      simp [backend_normalize_status, h, h1]
    · intro h1 h2
      simp [backend_normalize_status, h, h1, h2]
    · intro h1 h2 h3
      simp [backend_normalize_status, h, h1, h2, h3]
    · intro h2 h1
      simp [backend_normalize_status, h, h1]

/-- Witness for C1 at the specification's example: a sentence containing
both 안전장치 and 수임 불가 normalizes to 수임 불가. -/
theorem C1_status_priority_witness :
    backend_normalize_status ex_status_both = S_UNACCEPTABLE :=
  (((C1_status_priority ex_status_both).2 (by decide)).2.2.2 (by decide) (by decide))

/-- C2: for every input string the status normalizer is total and returns
one of exactly four values: the three canonical phrases or 검토 중. -/
theorem C2_status_total (raw : Str) :
    backend_normalize_status raw ∈
      [S_UNACCEPTABLE, S_SAFEGUARDS_FULL, S_ACCEPTABLE, S_UNDER_REVIEW] := by
  by_cases h : pyStrip raw ∈ valid_statuses
  · have h' := h
    simp only [valid_statuses, List.mem_cons, List.not_mem_nil, or_false] at h'
    rcases h' with h' | h' | h' <;>
      · simp only [backend_normalize_status, h']
        decide
  · by_cases h1 : hasSubstr S_UNACCEPTABLE (pyStrip raw) <;>
      by_cases h2 : hasSubstr S_SAFEGUARDS_MARKER (pyStrip raw) <;>
      by_cases h3 : hasSubstr S_ACCEPTABLE (pyStrip raw) <;>
      simp [backend_normalize_status, h, h1, h2, h3]

/-- Counterexample to C10 as stated: on the raw status ` 수임 불가 ` (with
surrounding whitespace) the post-response pass keeps the untrimmed original
while the backend handler returns the trimmed canonical phrase, so the
three normalization paths are not extensionally equal. -/
theorem C10_counterexample :
    frontend_normalize_status_post ex_status_padded ≠
        backend_normalize_status ex_status_padded ∧
    frontend_normalize_status_post ex_status_padded = ex_status_padded ∧
    backend_normalize_status ex_status_padded = S_UNACCEPTABLE := by
  refine ⟨?_, by decide, by decide⟩
  decide

/-- C10 amended: the backend handler and the frontend direct-engine branch
are extensionally equal on every raw status string; the post-response pass
agrees with them whenever the trimmed status is not one of the three
canonical phrases, but when it is canonical the post pass stores the
untrimmed original while the other two return the trimmed phrase (so it
agrees exactly on inputs equal to their own trim). -/
theorem C10_normalization_paths_agree (raw : Str) :
    (frontend_normalize_status_direct raw = backend_normalize_status raw) ∧
    (pyStrip raw ∉ valid_statuses →
      frontend_normalize_status_post raw = backend_normalize_status raw) ∧
    (pyStrip raw ∈ valid_statuses →
      frontend_normalize_status_post raw = raw ∧
      backend_normalize_status raw = pyStrip raw) := by
  refine ⟨rfl, ?_, ?_⟩
  · intro h
    simp only [frontend_normalize_status_post, backend_normalize_status,
      if_neg h]
  · intro h
    exact ⟨by simp only [frontend_normalize_status_post, if_pos h],
      by simp only [backend_normalize_status, if_pos h]⟩

/-- Witness for the amended C10: the non-canonical example sentence is
normalized identically by all three paths, and the padded canonical status
is kept untrimmed by the post pass. -/
theorem C10_normalization_paths_agree_witness :
    (frontend_normalize_status_direct ex_status_both
        = backend_normalize_status ex_status_both) ∧
    (frontend_normalize_status_post ex_status_both
        = backend_normalize_status ex_status_both) ∧
    (frontend_normalize_status_post ex_status_padded = ex_status_padded) :=
  ⟨(C10_normalization_paths_agree ex_status_both).1,
    (C10_normalization_paths_agree ex_status_both).2.1 (by decide),
    ((C10_normalization_paths_agree ex_status_padded).2.2 (by decide)).1⟩

/-- Helper: the annotator equals the rule-table view: it returns the fired
rules' citations joined with newlines, or the default sentence. -/
theorem law_context_eq_fired (ds : Str) :
    stage2_inject_law_context ds =
      (if (fired_citations ds).isEmpty then default_law_context
       else join_with ("\n".toList) (fired_citations ds)) := by
  have hctx :
      (((if kw_equity.any (fun k => hasSubstr k ds) then [cite_equity] else []) ++
      (if kw_advisory.any (fun k => hasSubstr k ds) then [cite_advisory] else [])) ++
      (if kw_loan.any (fun k => hasSubstr k ds) then [cite_loan] else [])) ++
      (if kw_family.any (fun k => hasSubstr k ds) then [cite_family] else []) =
      fired_citations ds := by
    cases h1 : kw_equity.any (fun k => hasSubstr k ds) <;>
    cases h2 : kw_advisory.any (fun k => hasSubstr k ds) <;>
    cases h3 : kw_loan.any (fun k => hasSubstr k ds) <;>
    cases h4 : kw_family.any (fun k => hasSubstr k ds) <;>
      · simp only [fired_citations, law_rules, List.filterMap_cons,
          List.filterMap_nil, h1, h2, h3, h4]
        decide
  simp only [stage2_inject_law_context]
  rw [hctx]

/-- C5: a serialized graph containing 주식 and no other trigger keyword gets
exactly the single equity-holding citation; in general the annotator returns
the fired rules' citations joined in rule-declaration order, each exactly
once, with the default sentence when none fire. -/
theorem C5_equity_single_citation (ds : Str) :
    (hasSubstr ("주식".toList) ds = true →
      (∀ k ∈ other_trigger_keywords, hasSubstr k ds = false) →
      stage2_inject_law_context ds = cite_equity) ∧
    stage2_inject_law_context ds =
      (if (fired_citations ds).isEmpty then default_law_context
       else join_with ("\n".toList) (fired_citations ds)) := by
  refine ⟨?_, law_context_eq_fired ds⟩
  intro hz hothers
  have hfalse : ∀ kws : List Str, (∀ x ∈ kws, x ∈ other_trigger_keywords) →
      kws.any (fun k => hasSubstr k ds) = false := by
    intro kws hsub
    rw [List.any_eq_false]
    intro x hx
    simp [hothers x (hsub x hx)]
  have h1 : kw_equity.any (fun k => hasSubstr k ds) = true := by
    rw [List.any_eq_true]
    exact ⟨"주식".toList, by decide, hz⟩
  have h2 := hfalse kw_advisory (by
    intro x hx; simp [other_trigger_keywords, List.mem_append, hx])
  have h3 := hfalse kw_loan (by
    intro x hx; simp [other_trigger_keywords, List.mem_append, hx])
  have h4 := hfalse kw_family (by
    intro x hx; simp [other_trigger_keywords, List.mem_append, hx])
  have hfired : fired_citations ds = [cite_equity] := by
    simp only [fired_citations, law_rules, List.filterMap_cons,
      List.filterMap_nil, h1, h2, h3, h4]
    decide
  rw [law_context_eq_fired ds, hfired]
  decide

/-- Witness for C5: the serialized form 주식 alone yields exactly the
equity-holding citation. -/
theorem C5_equity_single_citation_witness :
    stage2_inject_law_context ("주식".toList) = cite_equity :=
  (C5_equity_single_citation ("주식".toList)).1 (by decide) (by decide)

/-- C6: when no trigger keyword of any rule occurs in the serialized graph,
the annotator returns the fixed default sentence, which is not empty. -/
theorem C6_default_on_no_keywords (ds : Str) :
    (∀ k ∈ all_trigger_keywords, hasSubstr k ds = false) →
    stage2_inject_law_context ds = default_law_context ∧
      default_law_context ≠ [] := by
  intro h
  have hfalse : ∀ kws : List Str, (∀ x ∈ kws, x ∈ all_trigger_keywords) →
      kws.any (fun k => hasSubstr k ds) = false := by
    intro kws hsub
    rw [List.any_eq_false]
    intro x hx
    simp [h x (hsub x hx)]
  have h1 := hfalse kw_equity (by
    intro x hx; simp [all_trigger_keywords, List.mem_append, hx])
  have h2 := hfalse kw_advisory (by
    intro x hx; simp [all_trigger_keywords, List.mem_append, hx])
  have h3 := hfalse kw_loan (by
    intro x hx; simp [all_trigger_keywords, List.mem_append, hx])
  have h4 := hfalse kw_family (by
    intro x hx; simp [all_trigger_keywords, List.mem_append, hx])
  constructor
  · simp [stage2_inject_law_context, h1, h2, h3, h4]
  · decide

/-- Witness for C6: the empty serialized form contains no keyword and gets
the default sentence. -/
theorem C6_default_on_no_keywords_witness :
    stage2_inject_law_context [] = default_law_context ∧
      default_law_context ≠ [] :=
  C6_default_on_no_keywords [] (by decide)

/-- Helper: a left fold pushing `f x` onto the accumulator equals the
initial list followed by the map of `f`. -/
theorem foldl_push_eq_map {α β : Type} (f : α → β) :
    ∀ (l : List α) (init : List β),
      l.foldl (fun acc x => acc ++ [f x]) init = init ++ l.map f := by
  intro l
  induction l with
  | nil => intro init; simp
  | cons x xs ih =>
    intro init
    simp only [List.foldl_cons, List.map_cons]
    rw [ih]
    simp [List.append_assoc]

/-- Helper: the failure-propagating left fold of the edge loop equals
`mapMOpt` post-composed with an append. -/
theorem foldl_bind_eq_mapMOpt {α β : Type} (f : α → Option β) :
    ∀ (l : List α) (init : Option (List β)),
      l.foldl (fun acc x => acc.bind (fun ls => (f x).map (fun y => ls ++ [y])))
          init
        = init.bind (fun ls0 => (mapMOpt f l).map (fun ys => ls0 ++ ys)) := by
  intro l
  induction l with
  | nil =>
    intro init
    cases init <;> simp [mapMOpt]
  | cons x xs ih =>
    intro init
    simp only [List.foldl_cons]
    rw [ih]
    cases init with
    | none => simp [mapMOpt]
    | some ls =>
      cases hfx : f x with
      | none => simp [mapMOpt, hfx]
      | some y =>
        cases hm : mapMOpt f xs <;>
          simp [mapMOpt, hfx, hm, List.append_assoc]

/-- Helper: the renderer equals the markup-line view followed by
encoding. -/
theorem build_eq_encode_mermaid (g : Graph) (a : Analysis) :
    build_graph_image_url g a = (mermaid_lines g a).map encode_markup := by
  simp only [build_graph_image_url, mermaid_lines]
  rw [foldl_push_eq_map (node_line a.risky_node_ids) g.nodes,
    foldl_bind_eq_mapMOpt (fun ie => edge_line a.risky_edge_indices ie.1 ie.2)
      g.relationships.enum]
  cases hm : mapMOpt (fun ie => edge_line a.risky_edge_indices ie.1 ie.2)
      g.relationships.enum <;>
    simp [hm, encode_markup, List.append_assoc]

/-- Helper: `mapMOpt` only depends on the function's values on the list. -/
theorem mapMOpt_congr_on {α β : Type} {f g : α → Option β} :
    ∀ l : List α, (∀ x ∈ l, f x = g x) → mapMOpt f l = mapMOpt g l := by
  intro l
  induction l with
  | nil => intro _; rfl
  | cons x xs ih =>
    intro h
    simp only [mapMOpt, h x (by simp),
      ih (fun y hy => h y (List.mem_cons_of_mem x hy))]

/-- Helper: when `f` succeeds on every element, `mapMOpt` succeeds with a
list of the same length. -/
theorem mapMOpt_some_of_forall {α β : Type} {f : α → Option β} :
    ∀ l : List α, (∀ x ∈ l, (f x).isSome = true) →
      ∃ ys, mapMOpt f l = some ys ∧ ys.length = l.length := by
  intro l
  induction l with
  | nil => intro _; exact ⟨[], rfl, rfl⟩
  | cons x xs ih =>
    intro h
    obtain ⟨y, hy⟩ := Option.isSome_iff_exists.mp (h x (by simp))
    obtain ⟨ys, hys, hlen⟩ := ih (fun z hz => h z (List.mem_cons_of_mem x hz))
    exact ⟨y :: ys, by simp [mapMOpt, hy, hys], by simp [hlen]⟩

/-- Helper: `mapMOpt` fails when `f` fails on some member. -/
theorem mapMOpt_none_of_mem {α β : Type} {f : α → Option β} {x : α} :
    ∀ l : List α, x ∈ l → f x = none → mapMOpt f l = none := by
  intro l
  induction l with
  | nil => intro h; cases h
  | cons z zs ih =>
    intro hmem hfx
    rcases List.mem_cons.mp hmem with rfl | hz
    · simp [mapMOpt, hfx]
    · cases hfz : f z <;> simp [mapMOpt, hfz, ih hz hfx]

/-- Helper: membership in `enumFrom` bounds the index and projects to a
member of the list. -/
theorem mem_enumFrom_spec {α : Type} :
    ∀ (l : List α) (j i : Nat) (x : α),
      (i, x) ∈ l.enumFrom j → j ≤ i ∧ i < j + l.length ∧ x ∈ l := by
  intro l
  induction l with
  | nil => intro j i x h; cases h
  | cons z zs ih =>
    intro j i x h
    rcases List.mem_cons.mp h with heq | htail
    · have h1 : i = j := congrArg Prod.fst heq
      have h2 : x = z := congrArg Prod.snd heq
      subst h1
      subst h2
      refine ⟨Nat.le_refl _, ?_, by simp⟩
      simp only [List.length_cons]
      omega
    · obtain ⟨h1, h2, h3⟩ := ih (j + 1) i x htail
      refine ⟨Nat.le_of_succ_le h1, ?_, List.mem_cons_of_mem z h3⟩
      simp only [List.length_cons]
      omega

/-- Helper: every member of a list appears in its `enumFrom`. -/
theorem enumFrom_mem_of_mem {α : Type} {x : α} :
    ∀ (l : List α) (j : Nat), x ∈ l → ∃ i, (i, x) ∈ l.enumFrom j := by
  intro l
  induction l with
  | nil => intro j h; cases h
  | cons z zs ih =>
    intro j hmem
    rcases List.mem_cons.mp hmem with rfl | hz
    · exact ⟨j, by simp⟩
    · obtain ⟨i, hi⟩ := ih (j + 1) hz
      exact ⟨i, List.mem_cons_of_mem _ hi⟩

/-- Helper: a string containing a space splits at its first space, and
`findIdx` finds exactly that position. -/
theorem findIdx_space_split :
    ∀ l : Str, ' ' ∈ l →
      ∃ p q, l = p ++ ' ' :: q ∧ ' ' ∉ p ∧
        l.findIdx (fun c => c = ' ') = p.length := by
  intro l
  induction l with
  | nil => intro h; cases h
  | cons c rest ih =>
    intro hmem
    by_cases hc : c = ' '
    · subst hc
      exact ⟨[], rest, rfl, by simp, by simp [List.findIdx_cons]⟩
    · have hrest : ' ' ∈ rest := by
        rcases List.mem_cons.mp hmem with h | h
        · exact absurd h.symm hc
        · exact h
      obtain ⟨p, q, hl, hp, hidx⟩ := ih hrest
      refine ⟨c :: p, q, by rw [hl]; rfl, ?_, ?_⟩
      · intro h
        rcases List.mem_cons.mp h with h | h
        · exact hc h.symm
        · exact hp h
      · simp [List.findIdx_cons, hc, hidx]

/-- C3: the renderer is a pure function of its two inputs: identical inputs
give byte-identical URLs, and a successful render is exactly the fixed base
path followed by the standard base64 of the UTF-8 bytes of the
newline-joined markup lines. -/
theorem C3_renderer_deterministic (g g' : Graph) (a a' : Analysis) :
    (g = g' → a = a' → build_graph_image_url g a = build_graph_image_url g' a') ∧
    (∀ ls, mermaid_lines g a = some ls →
      build_graph_image_url g a =
        some (mermaid_ink_base ++
          base64Encode (utf8Encode (join_with ("\n".toList) ls)))) := by
  constructor
  · intro h1 h2
    rw [h1, h2]
  · intro ls hls
    rw [build_eq_encode_mermaid, hls]
    rfl

/-- Witness for C3 at the concrete example graph and analysis. -/
theorem C3_renderer_deterministic_witness :
    build_graph_image_url ex_graph ex_analysis =
        build_graph_image_url ex_graph ex_analysis ∧
    build_graph_image_url ex_graph ex_analysis =
      some (mermaid_ink_base ++
        base64Encode (utf8Encode (join_with ("\n".toList)
          (("graph TD".toList ::
            (ex_graph.nodes.map (node_line ex_analysis.risky_node_ids) ++
              ([("    p1 -. \"".toList ++ WARN_GLYPH ++
                  edge_label ("EMPLOYED_BY".toList) ++ "\" .-> o1".toList)] ++
                [classdef_normal, classdef_risky]))))))) :=
  ⟨(C3_renderer_deterministic ex_graph ex_graph ex_analysis ex_analysis).1
      rfl rfl,
    (C3_renderer_deterministic ex_graph ex_graph ex_analysis ex_analysis).2
      _ (by decide)⟩

/-- C4: each edge label is the type with underscores replaced by spaces; a
break is inserted iff the label is longer than 12 characters and contains a
space, and then exactly one break replaces the first space only, leaving
everything after it (later spaces included) unchanged. -/
theorem C4_edge_label_first_space (t : Str) :
    (¬(12 < (underscore_to_space t).length ∧ ' ' ∈ underscore_to_space t) →
      edge_label t = underscore_to_space t) ∧
    (12 < (underscore_to_space t).length → ' ' ∈ underscore_to_space t →
      ∃ p q, underscore_to_space t = p ++ ' ' :: q ∧ ' ' ∉ p ∧
        edge_label t = p ++ '\\' :: 'n' :: q) := by
  constructor
  · intro h
    simp only [edge_label, if_neg h]
  · intro h12 hsp
    obtain ⟨p, q, hl, hp, hidx⟩ := findIdx_space_split (underscore_to_space t) hsp
    refine ⟨p, q, hl, hp, ?_⟩
    simp only [edge_label, wrap_label, if_pos (And.intro h12 hsp)]
    rw [hidx, hl, List.take_left]
    rw [← List.drop_drop, List.drop_left]
    rfl

/-- Witness for C4: `SIGNIFICANT_INFLUENCE_OVER` wraps at its first space
only. -/
theorem C4_edge_label_first_space_witness :
    ∃ p q, underscore_to_space ("SIGNIFICANT_INFLUENCE_OVER".toList)
        = p ++ ' ' :: q ∧ ' ' ∉ p ∧
      edge_label ("SIGNIFICANT_INFLUENCE_OVER".toList) = p ++ '\\' :: 'n' :: q :=
  (C4_edge_label_first_space ("SIGNIFICANT_INFLUENCE_OVER".toList)).2
    (by decide) (by decide)

/-- C7: a node whose id is in `risky_node_ids` is rendered with the warning
glyph before its display text and the risky class, regardless of its
properties; a node whose id is not in the list gets no glyph and the normal
class. -/
theorem C7_risky_node_styling (risky : List Str) (n : GNode) (i : Str)
    (hid : n.id = some i) :
    (i ∈ risky → node_line risky n =
      "    ".toList ++ i ++ "[\"".toList ++ WARN_GLYPH ++
        node_display_text n ++ "\"]:::".toList ++ "riskyNode".toList) ∧
    (i ∉ risky → node_line risky n =
      "    ".toList ++ i ++ "[\"".toList ++
        node_display_text n ++ "\"]:::".toList ++ "normalNode".toList) := by
  constructor
  · intro h
    simp [node_line, node_in_risky, pyShow, hid, h]
  · intro h
    simp [node_line, node_in_risky, pyShow, hid, h]

/-- Witness for C7: node `p1`, which has a firm role, is rendered with the
glyph and risky class when flagged. -/
theorem C7_risky_node_styling_witness :
    node_line (["p1".toList]) ex_node_p1 =
      "    ".toList ++ "p1".toList ++ "[\"".toList ++ WARN_GLYPH ++
        node_display_text ex_node_p1 ++ "\"]:::".toList ++ "riskyNode".toList :=
  (C7_risky_node_styling (["p1".toList]) ex_node_p1 ("p1".toList) rfl).1
    (by decide)

/-- C8: unmatched risky references are silently ignored: a risky node id
matching no node's id and an out-of-range risky edge index leave the output
unchanged, and rendering completes without raising whenever every edge has
a type, whatever the risky references are. -/
theorem C8_unmatched_refs_ignored (g : Graph) (a : Analysis) (x : Str)
    (k : Int) :
    ((∀ n ∈ g.nodes, n.id ≠ some x) →
      build_graph_image_url g
          { a with risky_node_ids := x :: a.risky_node_ids } =
        build_graph_image_url g a) ∧
    ((k < 0 ∨ (g.relationships.length : Int) ≤ k) →
      build_graph_image_url g
          { a with risky_edge_indices := k :: a.risky_edge_indices } =
        build_graph_image_url g a) ∧
    ((∀ e ∈ g.relationships, (e.type).isSome = true) →
      (build_graph_image_url g a).isSome = true) := by
  refine ⟨?_, ?_, ?_⟩
  · intro h
    rw [build_eq_encode_mermaid, build_eq_encode_mermaid]
    have hnodes : g.nodes.map (node_line (x :: a.risky_node_ids)) =
        g.nodes.map (node_line a.risky_node_ids) := by
      apply List.map_congr_left
      intro n hn
      have hrisky : node_in_risky n.id (x :: a.risky_node_ids) =
          node_in_risky n.id a.risky_node_ids := by
        cases hni : n.id with
        | none => rfl
        | some i =>
          have hne : i ≠ x := by
            intro hix
            exact h n hn (by rw [hni, hix])
          have hmem : (i ∈ x :: a.risky_node_ids) = (i ∈ a.risky_node_ids) := by
            simp [List.mem_cons, hne]
          simp only [node_in_risky, hmem]
      simp only [node_line, hrisky]
    simp only [mermaid_lines, hnodes]
  · intro hk
    rw [build_eq_encode_mermaid, build_eq_encode_mermaid]
    have hedges :
        mapMOpt (fun ie => edge_line (k :: a.risky_edge_indices) ie.1 ie.2)
            g.relationships.enum =
          mapMOpt (fun ie => edge_line a.risky_edge_indices ie.1 ie.2)
            g.relationships.enum := by
      apply mapMOpt_congr_on
      intro ie hie
      obtain ⟨i, e⟩ := ie
      have hie' : (i, e) ∈ g.relationships.enumFrom 0 := hie
      obtain ⟨-, hlt, -⟩ := mem_enumFrom_spec g.relationships 0 i e hie'
      have hne : (i : Int) ≠ k := by
        rcases hk with hneg | hge
        · omega
        · have hi : i < g.relationships.length := by omega
          omega
      have hmem : ((i : Int) ∈ k :: a.risky_edge_indices) =
          ((i : Int) ∈ a.risky_edge_indices) := by
        simp [List.mem_cons, hne]
      simp only [edge_line, hmem]
    simp only [mermaid_lines, hedges]
  · intro h
    rw [build_eq_encode_mermaid]
    obtain ⟨ys, hys, -⟩ :=
      mapMOpt_some_of_forall
        (f := fun ie => edge_line a.risky_edge_indices ie.1 ie.2)
        g.relationships.enum
        (by
          intro ie hie
          obtain ⟨i, e⟩ := ie
          have hie' : (i, e) ∈ g.relationships.enumFrom 0 := hie
          obtain ⟨-, -, hmem⟩ := mem_enumFrom_spec g.relationships 0 i e hie'
          have htype := h e hmem
          cases ht : e.type with
          | none => rw [ht] at htype; cases htype
          | some tt =>
            simp only [edge_line, ht]
            split <;> rfl)
    simp [mermaid_lines, hys]

/-- Witness for C8 at the concrete example: a ghost node id and the
out-of-range edge index 5 leave the URL unchanged, and the render
succeeds. -/
theorem C8_unmatched_refs_ignored_witness :
    (build_graph_image_url ex_graph
        { ex_analysis with
            risky_node_ids := "ghost".toList :: ex_analysis.risky_node_ids } =
      build_graph_image_url ex_graph ex_analysis) ∧
    (build_graph_image_url ex_graph
        { ex_analysis with
            risky_edge_indices := 5 :: ex_analysis.risky_edge_indices } =
      build_graph_image_url ex_graph ex_analysis) ∧
    (build_graph_image_url ex_graph ex_analysis).isSome = true :=
  ⟨(C8_unmatched_refs_ignored ex_graph ex_analysis ("ghost".toList) 5).1
      (by decide),
    (C8_unmatched_refs_ignored ex_graph ex_analysis ("ghost".toList) 5).2.1
      (by decide),
    (C8_unmatched_refs_ignored ex_graph ex_analysis ("ghost".toList) 5).2.2
      (by decide)⟩

/-- Counterexample to C9 as stated: a graph whose only edge has no `type`
makes the render raise (`None.replace` fails with `AttributeError`),
modelled as `none` — the renderer does crash on a missing edge type. -/
theorem C9_counterexample :
    (∃ e ∈ ex_graph_bad_edge.relationships, e.type = none) ∧
    build_graph_image_url ex_graph_bad_edge ex_analysis_empty = none := by
  decide

/-- C9 amended: a node without an id never crashes the render and is not
omitted — whenever every edge has a type the render yields exactly one
header line, one line per node, one line per edge and two footer lines,
whatever the nodes' fields are; but an edge without a type aborts the whole
render with an exception. -/
theorem C9_amended_missing_fields (g : Graph) (a : Analysis) :
    ((∀ e ∈ g.relationships, (e.type).isSome = true) →
      ∃ ls, mermaid_lines g a = some ls ∧
        ls.length = g.nodes.length + g.relationships.length + 3) ∧
    ((∃ e ∈ g.relationships, e.type = none) →
      build_graph_image_url g a = none) := by
  constructor
  · intro h
    obtain ⟨ys, hys, hlen⟩ :=
      mapMOpt_some_of_forall
        (f := fun ie => edge_line a.risky_edge_indices ie.1 ie.2)
        g.relationships.enum
        (by
          intro ie hie
          obtain ⟨i, e⟩ := ie
          have hie' : (i, e) ∈ g.relationships.enumFrom 0 := hie
          obtain ⟨-, -, hmem⟩ := mem_enumFrom_spec g.relationships 0 i e hie'
          have htype := h e hmem
          cases ht : e.type with
          | none => rw [ht] at htype; cases htype
          | some tt =>
            simp only [edge_line, ht]
            split <;> rfl)
    refine ⟨"graph TD".toList ::
        (g.nodes.map (node_line a.risky_node_ids) ++
          (ys ++ [classdef_normal, classdef_risky])), ?_, ?_⟩
    · simp [mermaid_lines, hys]
    · have henum : (g.relationships.enum).length = g.relationships.length :=
        List.enumFrom_length
      simp only [List.length_cons, List.length_append, List.length_map,
        List.length_nil, hlen, henum]
      omega
  · rintro ⟨e, he, hnone⟩
    rw [build_eq_encode_mermaid]
    obtain ⟨i, hi⟩ := enumFrom_mem_of_mem g.relationships 0 he
    have hm : mapMOpt (fun ie => edge_line a.risky_edge_indices ie.1 ie.2)
        g.relationships.enum = none :=
      mapMOpt_none_of_mem g.relationships.enum hi
        (by simp [edge_line, hnone])
    simp [mermaid_lines, hm]

/-- Witness for the amended C9: a graph with an id-less node and one typed
edge renders all five lines without crashing. -/
theorem C9_amended_missing_fields_witness :
    ∃ ls, mermaid_lines ex_graph_noid ex_analysis_empty = some ls ∧
      ls.length = ex_graph_noid.nodes.length +
        ex_graph_noid.relationships.length + 3 :=
  (C9_amended_missing_fields ex_graph_noid ex_analysis_empty).1 (by decide)
